import Mathlib

/-!
# Benchmark harness of `src/src/renderer.js`

A shallow embedding of the measurement harness of the three.js test scene:
the rolling frame counter (`fpsCounterLoop`), the camera loop
(`beginCameraLoop`), the one-second sampler (`startClockTimer`), the user
controls (`initBenchmarkControls`, `setResolution`) and the export of the
results (`initTestResultControls`).

Conventions of the embedding.

* The module-level `let` variables of the script are the fields of `State`.
* A JavaScript number holding an integer is an `Int`; a value that may be
  `undefined` is an `Option`.
* `performance.now()` and `timer.getElapsedTime()` are readings of the
  environment: they are rationals carried by the event that reads them.
* `toLocaleString()` is called without a locale, so it formats under the
  default locale of the host: the formatting function is carried by the event
  that calls it, and nothing is assumed about the characters it writes.
* Text is a list of characters.
* A callback that can throw returns the state reached together with a
  `Completion`; the assignments made before the throw are kept, as in
  JavaScript.
-/

namespace Renderer

/-- How a callback ends: normally, or with an uncaught `TypeError`. -/
inductive Completion where
  | normal
  | typeError
  deriving DecidableEq, Repr

/-- The object literal stored in `sizes`. -/
structure Sizes where
  width : Int
  height : Int
  deriving DecidableEq, Repr

/-- The global variables of the script that the harness reads or writes,
together with the observable part of its collaborators (camera position,
composer, registered intervals, the `timeElapsed` element). -/
structure State where
  /-- The variable `fps`, declared without initialiser -/
  fps : Option Int
  /-- The variable `times` -/
  times : List ℚ
  /-- The variable `testResults` -/
  testResults : List (Option Int)
  /-- The variable `memoryUsage` -/
  memoryUsage : List Int
  /-- The variable `sizes` -/
  sizes : Sizes
  /-- The variable `refreshRate` -/
  refreshRate : Int
  /-- The variable `readyToTest` -/
  readyToTest : Bool
  /-- The variable `msaaSamples`, declared without initialiser -/
  msaaSamples : Option Int
  /-- The variable `currentPosition` -/
  currentPosition : Nat
  /-- The variable `cameraPositions` -/
  cameraPositions : List (Int × Int × Int)
  /-- The property `camera.position` -/
  cameraPosition : Int × Int × Int
  /-- The property `composer.multisampling` -/
  composerMultisampling : Int
  /-- arguments of the calls of `composer.setSize`, oldest first -/
  composerSetSizeCalls : List (Int × Int)
  /-- arguments of the calls of `renderer.setSize` made by the resize listener -/
  rendererSetSizeCalls : List (Int × Int)
  /-- The property `timer.running` -/
  timerRunning : Bool
  /-- number of intervals registered by `startClockTimer` -/
  samplerTimers : Nat
  /-- number of intervals registered by `beginCameraLoop` -/
  cameraTimers : Nat
  /-- The `innerHTML` of the element `timeElapsed`, once the script has written it -/
  timeElapsed : Option (List Char)

/-- The state after the top-level declarations, `initRenderer()` and `init()`. -/
def initialState : State where
  fps := none
  times := []
  testResults := []
  memoryUsage := []
  sizes := ⟨1920, 1080⟩
  refreshRate := 0
  readyToTest := false
  msaaSamples := none
  currentPosition := 0
  cameraPositions := [(0, 0, 15), (50, -90, 120), (1, 60, 0), (60, 5, 15), (-50, 15, -55)]
  cameraPosition := (0, 0, 15)
  composerMultisampling := 0
  composerSetSizeCalls := []
  rendererSetSizeCalls := []
  timerRunning := false
  samplerTimers := 0
  cameraTimers := 0
  timeElapsed := none

/-! ## fpsCounterLoop -/

/-- The `while` loop of `fpsCounterLoop`:
`while (times.length > 0 && times[0] <= now - 1000) times.shift()`. -/
def evict (now : ℚ) : List ℚ → List ℚ
  | [] => []
  | t :: ts => if t ≤ now - 1000 then evict now ts else t :: ts

/-- The function `fpsCounterLoop()`, with `performance.now()` returning `now`. -/
def fpsCounterLoop (now : ℚ) (s : State) : State :=
  let times1 := evict now s.times
  let times2 := times1 ++ [now]
  { s with times := times2, fps := some (times2.length : Int) }

/-- Successive calls of `fpsCounterLoop`, one per timestamp. -/
def feedFrames (nows : List ℚ) (s : State) : State :=
  nows.foldl (fun st now => fpsCounterLoop now st) s


/-! ## Numbers and text -/

/-- The function `Math.round`: the integer nearest to `x`, a tie going up. -/
def mathRound (x : ℚ) : Int := ⌊x + 1 / 2⌋

/-- The method `Number.prototype.toString` on an integer value: the decimal
numeral in ASCII digits, with a minus sign for a negative value. -/
def numberToString (z : Int) : List Char :=
  if z < 0 then '-' :: Nat.toDigits 10 z.natAbs else Nat.toDigits 10 z.toNat

/-- A substitution of a template literal whose value is a number or `undefined`. -/
def templateValue : Option Int → List Char
  | none => "undefined".toList
  | some z => numberToString z

/-- The text `Array.prototype.join` uses for one element: `undefined` gives
the empty text. -/
def joinElement : Option Int → List Char
  | none => []
  | some z => numberToString z

/-- The method `Array.prototype.join` on the texts of the elements. -/
def arrayJoin (sep : List Char) : List (List Char) → List Char
  | [] => []
  | [x] => x
  | x :: y :: rest => x ++ sep ++ arrayJoin sep (y :: rest)

/-- The method `Array.prototype.toString`, which a template literal applies to an array:
the elements joined by a comma. -/
def arrayToString (xs : List (Option Int)) : List Char :=
  arrayJoin [','] (xs.map joinElement)

/-- The lines of a text: the pieces between line feeds. -/
def splitLines : List Char → List (List Char)
  | [] => [[]]
  | c :: cs =>
    if c = '\n' then [] :: splitLines cs
    else
      match splitLines cs with
      | [] => [[c]]
      | l :: ls => (c :: l) :: ls

/-! ## beginCameraLoop -/

/-- The callback registered by `beginCameraLoop`. With an empty list the index
is `NaN`, the element read is `undefined`, and reading `[0]` of it throws. -/
def cameraLoopCallback (s : State) : State × Completion :=
  let s1 := { s with currentPosition := s.currentPosition + 1 }
  if s1.cameraPositions.length = 0 then (s1, Completion.typeError)
  else
    let indexPosition := s1.currentPosition % s1.cameraPositions.length
    match s1.cameraPositions[indexPosition]? with
    | none => (s1, Completion.typeError)
    | some p => ({ s1 with cameraPosition := p }, Completion.normal)

/-- The state after `k` firings of the camera callback. -/
def cameraTicks (k : Nat) (s : State) : State :=
  (fun st => (cameraLoopCallback st).1)^[k] s

/-- The function `beginCameraLoop()`: registers one more 20-second interval. -/
def beginCameraLoop (s : State) : State :=
  { s with cameraTimers := s.cameraTimers + 1 }

/-! ## startClockTimer -/

/-- The text written to the element `timeElapsed`, from the reading
`timer.getElapsedTime()`; `toLocaleString` is the number formatting of the
default locale of the host. -/
def timeElapsedText (toLocaleString : Int → List Char) (elapsed : ℚ) : List Char :=
  let elapsedTimeSeconds0 : Int := mathRound elapsed
  let elapsedTimeMinutes0 : ℚ := (elapsedTimeSeconds0 : ℚ) / 60
  let elapsedTimeSeconds : Int := Int.tmod ⌊(elapsedTimeSeconds0 : ℚ)⌋ 60
  let elapsedTimeMinutes : Int := Int.tmod ⌊elapsedTimeMinutes0⌋ 60
  let stringMinutes := toLocaleString elapsedTimeMinutes
  let stringSeconds0 := toLocaleString elapsedTimeSeconds
  let stringSeconds :=
    if (numberToString elapsedTimeSeconds).length < 2 then '0' :: stringSeconds0
    else stringSeconds0
  "Time elapsed: ".toList ++ stringMinutes ++ [':'] ++ stringSeconds

/-- The callback registered by `startClockTimer`. `toLocaleString` is the
number formatting of the default locale of the host, `elapsed` the reading of
`timer.getElapsedTime()`, `memory` the property `usedJSHeapSize` of
`performance.memory`, or `none` when `performance.memory` is `undefined`. -/
def samplerCallback (toLocaleString : Int → List Char) (elapsed : ℚ) (memory : Option Int)
    (s : State) : State × Completion :=
  let s1 := { s with timeElapsed := some (timeElapsedText toLocaleString elapsed) }
  if s1.readyToTest then
    let s2 := { s1 with testResults := s1.testResults ++ [s1.fps] }
    match memory with
    | none => (s2, Completion.typeError)
    | some usedJSHeapSize =>
      ({ s2 with memoryUsage :=
            s2.memoryUsage ++ [mathRound ((usedJSHeapSize : ℚ) / 1048576)] },
        Completion.normal)
  else (s1, Completion.normal)

/-- The function `startClockTimer()`: registers one more one-second interval. -/
def startClockTimer (s : State) : State :=
  { s with samplerTimers := s.samplerTimers + 1 }

/-! ## initBenchmarkControls and setResolution -/

/-- The table of `setResolution`. -/
def resolutionSizes (resolution : String) : Sizes :=
  if resolution = "FullHD" then ⟨1920, 1080⟩
  else if resolution = "WQHD" then ⟨2560, 1440⟩
  else if resolution = "4K" then ⟨3840, 2160⟩
  else ⟨1920, 1080⟩

/-- The function `setResolution(resolution)`. -/
def setResolution (resolution : String) (s : State) : State :=
  let s1 := { s with sizes := resolutionSizes resolution }
  { s1 with composerSetSizeCalls :=
      s1.composerSetSizeCalls ++ [(s1.sizes.width, s1.sizes.height)] }

/-- The `onChange` handler of the refresh-rate selector. -/
def setRefreshRate (value : Int) (s : State) : State :=
  { s with refreshRate := value }

/-- The `onChange` handler of the antialiasing selector. -/
def setAntialiasing (value : Int) (s : State) : State :=
  { s with composerMultisampling := value, msaaSamples := some value }

/-- The function behind the button `Begin test`. -/
def BeginTest (s : State) : State :=
  startClockTimer (beginCameraLoop { s with readyToTest := true, timerRunning := true })

/-- The `resize` listener installed by `init`. -/
def windowResize (innerWidth innerHeight : Int) (s : State) : State :=
  { s with sizes := ⟨innerWidth, innerHeight⟩,
           rendererSetSizeCalls := s.rendererSetSizeCalls ++ [(innerWidth, innerHeight)] }

/-! ## initTestResultControls -/

/-- The text of the file built by `SaveTestResults`; `date` is the text of
`Moment().toLocaleString()`. -/
def SaveTestResults (date : List Char) (s : State) : List Char :=
  "Three.js performance test results \n\n          Testing date: ".toList ++ date
  ++ "; \n\n          Resolution: width: ".toList ++ numberToString s.sizes.width
  ++ ", height: ".toList ++ numberToString s.sizes.height
  ++ " \n\n          Refresh rate: ".toList ++ numberToString s.refreshRate
  ++ " \n\n          MSAA: ".toList ++ templateValue s.msaaSamples
  ++ " \n\n          Frames per second (each FPS count in array was ticked every second):\n          ".toList
  ++ arrayToString s.testResults
  ++ " \n\n          Memory usage (in Megabytes):\n          ".toList
  ++ arrayToString (s.memoryUsage.map some)
  ++ "\n          ".toList

/-! ## The event loop -/

/-- What the single-threaded event loop can run next. -/
inductive Event where
  /-- a run of `animate` reaching `if (readyToTest) fpsCounterLoop()` -/
  | frame (now : ℚ)
  /-- one firing of a sampler interval -/
  | samplerTick (elapsed : ℚ) (memory : Option Int) (toLocaleString : Int → List Char)
  /-- one firing of a camera interval -/
  | cameraTick
  /-- the button `Begin test` -/
  | beginTest
  /-- the resolution selector -/
  | resolution (value : String)
  /-- the refresh-rate selector -/
  | refresh (value : Int)
  /-- the antialiasing selector -/
  | antialiasing (value : Int)
  /-- the window is resized -/
  | resize (innerWidth innerHeight : Int)
  /-- the button `Save test results` -/
  | save

/-- One turn of the event loop. An interval fires only once registered; an
exception thrown by a callback ends that callback and nothing else. -/
def step (s : State) : Event → State
  | Event.frame now => if s.readyToTest then fpsCounterLoop now s else s
  | Event.samplerTick elapsed memory toLocaleString =>
    if s.samplerTimers = 0 then s else (samplerCallback toLocaleString elapsed memory s).1
  | Event.cameraTick => if s.cameraTimers = 0 then s else (cameraLoopCallback s).1
  | Event.beginTest => BeginTest s
  | Event.resolution value => setResolution value s
  | Event.refresh value => setRefreshRate value s
  | Event.antialiasing value => setAntialiasing value s
  | Event.resize w h => windowResize w h s
  | Event.save => s

/-- The state after a sequence of turns of the event loop. -/
def run (evs : List Event) (s : State) : State := evs.foldl step s

/-- Is the event a firing of the sampler. -/
def Event.isSamplerTick : Event → Bool
  | Event.samplerTick _ _ _ => true
  | _ => false

/-- Is the event a rendered frame. -/
def Event.isFrame : Event → Bool
  | Event.frame _ => true
  | _ => false

/-- Is the event a press of `Begin test`. -/
def Event.isBeginTest : Event → Bool
  | Event.beginTest => true
  | _ => false

/-- Does the event find the memory probe: false only for a sampler firing
with `performance.memory` undefined. -/
def Event.probeAvailable : Event → Bool
  | Event.samplerTick _ none _ => false
  | _ => true

/-- One elapsed second: every registered sampler interval fires once, the
`i`-th with the readings `readings i`. -/
def elapseSecond (toLocaleString : Int → List Char) (readings : Nat → ℚ × Option Int)
    (s : State) : State :=
  (List.range s.samplerTimers).foldl
    (fun st i => (samplerCallback toLocaleString (readings i).1 (readings i).2 st).1) s

/-- One elapsed period of 20 seconds: every registered camera interval fires once. -/
def elapseCameraPeriod (s : State) : State :=
  cameraTicks s.cameraTimers s

/-! ## The wording of the specification, for comparison -/

/-- The elapsed-time text as the specification words it: whole seconds are
the elapsed time floored, minutes and seconds are decimal numerals. -/
def timeElapsedTextFloored (elapsed : ℚ) : List Char :=
  let s : Nat := ⌊elapsed⌋.toNat
  let seconds := Nat.toDigits 10 (s % 60)
  "Time elapsed: ".toList ++ Nat.toDigits 10 (s / 60 % 60) ++ [':']
    ++ (if s % 60 < 10 then '0' :: seconds else seconds)

/-- The session is running and a sampler interval is registered. -/
def Running (s : State) : Prop := s.readyToTest = true ∧ 0 < s.samplerTimers

/-- Is the event a change of the antialiasing selector. -/
def Event.isAntialiasing : Event → Bool
  | Event.antialiasing _ => true
  | _ => false

/-- An example of the number formatting of a host: the decimal numeral in
Arabic-Indic digits, as a host whose default locale is `ar-EG` writes a
non-negative integer below 1000. -/
def arabicIndicString (z : Int) : List Char :=
  (numberToString z).map fun c =>
    if c = '0' then '٠' else if c = '1' then '١' else if c = '2' then '٢'
    else if c = '3' then '٣' else if c = '4' then '٤' else if c = '5' then '٥'
    else if c = '6' then '٦' else if c = '7' then '٧' else if c = '8' then '٨'
    else if c = '9' then '٩' else c

/-! ## The rolling frame counter -/

theorem evict_sorted (now : ℚ) (l : List ℚ) (h : l.Sorted (· ≤ ·)) :
    evict now l = l.filter (fun t => decide (now - 1000 < t)) := by
  induction l with
  | nil => rfl
  | cons t ts ih =>
    have hs := List.sorted_cons.mp h
    by_cases ht : t ≤ now - 1000
    · have hn : ¬ (now - 1000 < t) := not_lt.mpr ht
      simp [evict, ht, hn, ih hs.2]
    · have hall : ∀ a ∈ t :: ts, decide (now - 1000 < a) = true := by
        intro a ha
        rcases List.mem_cons.mp ha with rfl | ha
        · simpa using ht
        · have := hs.1 a ha
          simp only [decide_eq_true_eq]
          linarith [not_le.mp ht]
      simp only [evict, ht, if_false]
      exact (List.filter_eq_self.mpr hall).symm

theorem feedFrames_snoc (ts : List ℚ) (now : ℚ) (s : State) :
    feedFrames (ts ++ [now]) s = fpsCounterLoop now (feedFrames ts s) := by
  simp [feedFrames, List.foldl_append]

theorem feedFrames_times (s : State) (hs : s.times = []) (ts : List ℚ) (now : ℚ)
    (h : (ts ++ [now]).Sorted (· ≤ ·)) :
    (feedFrames (ts ++ [now]) s).times
      = (ts ++ [now]).filter (fun t => decide (now - 1000 < t)) := by
  induction ts using List.reverseRecOn generalizing now with
  | nil =>
    simp [feedFrames, fpsCounterLoop, hs, evict]
  | append_singleton ts p ih =>
    have hsorted : (ts ++ [p]).Sorted (· ≤ ·) := by
      have := List.pairwise_append.mp h
      exact this.1
    have hp : p ≤ now := by
      have := List.pairwise_append.mp h
      exact this.2.2 p (by simp) now (by simp)
    rw [feedFrames_snoc]
    have ih1 := ih p hsorted
    have hsub : ((ts ++ [p]).filter (fun t => decide (p - 1000 < t))).Sorted (· ≤ ·) :=
      List.Pairwise.filter _ hsorted
    simp only [fpsCounterLoop, ih1]
    rw [evict_sorted now _ hsub, List.filter_filter]
    have hnow : decide (now - 1000 < now) = true := by simp
    rw [List.filter_append (ts ++ [p]) [now]]
    simp only [List.filter_cons, hnow, if_true, List.filter_nil]
    congr 1
    apply List.filter_congr
    intro a _
    by_cases ha : now - 1000 < a
    · have : p - 1000 < a := by linarith
      simp [ha, this]
    · simp [ha]

theorem feedFrames_fps (s : State) (ts : List ℚ) (now : ℚ) :
    (feedFrames (ts ++ [now]) s).fps
      = some ((feedFrames (ts ++ [now]) s).times.length : Int) := by
  rw [feedFrames_snoc]
  simp [fpsCounterLoop]

theorem gap_chain_all (ts : List ℚ) (now : ℚ)
    (h : (ts ++ [now]).Chain' (fun a b => a + 1000 < b)) :
    (ts ++ [now]).Sorted (· ≤ ·) ∧ ∀ t ∈ ts, t + 1000 < now := by
  haveI : IsTrans ℚ (fun a b => a + 1000 < b) :=
    ⟨fun a b c hab hbc => by linarith⟩
  have hp : (ts ++ [now]).Pairwise (fun a b => a + 1000 < b) :=
    List.chain'_iff_pairwise.mp h
  constructor
  · exact hp.imp (fun hab => by linarith)
  · intro t ht
    exact (List.pairwise_append.mp hp).2.2 t ht now (by simp)

/-- C1. For every non-decreasing sequence of frame timestamps fed one at a
time to `fpsCounterLoop`, starting from an empty `times`, after the call with
timestamp `now` the list `times` holds, in order, exactly the timestamps fed
so far (`now` included) that are strictly greater than `now - 1000`, and `fps`
is their number; when consecutive timestamps are more than 1000 ms apart,
`fps` is 1 after the call. -/
theorem fpsCounterLoop_window (s : State) (ts : List ℚ) (now : ℚ)
    (hs : s.times = []) (h : (ts ++ [now]).Sorted (· ≤ ·)) :
    (feedFrames (ts ++ [now]) s).times
        = (ts ++ [now]).filter (fun t => decide (now - 1000 < t))
    ∧ (feedFrames (ts ++ [now]) s).fps
        = some (((ts ++ [now]).filter (fun t => decide (now - 1000 < t))).length : Int)
    ∧ ((ts ++ [now]).Chain' (fun a b => a + 1000 < b) →
        (feedFrames (ts ++ [now]) s).fps = some 1) := by
  have ht := feedFrames_times s hs ts now h
  refine ⟨ht, ?_, ?_⟩
  · rw [feedFrames_fps, ht]
  · intro hc
    have hall := (gap_chain_all ts now hc).2
    rw [feedFrames_fps, ht, List.filter_append]
    have : ts.filter (fun t => decide (now - 1000 < t)) = [] := by
      apply List.filter_eq_nil_iff.mpr
      intro a ha
      have := hall a ha
      simp only [decide_eq_true_eq, not_lt]
      linarith
    simp [this]

theorem fpsCounterLoop_window_witness :
    ([(0 : ℚ), 400] ++ [1200]).Sorted (· ≤ ·) ∧
    (feedFrames ([(0 : ℚ), 400] ++ [1200]) initialState).fps
        = some ((([(0 : ℚ), 400] ++ [1200]).filter
            (fun t => decide ((1200 : ℚ) - 1000 < t))).length : Int) :=
  ⟨by norm_num, (fpsCounterLoop_window initialState [0, 400] 1200 rfl (by norm_num)).2.1⟩


/-! ## The camera loop -/

theorem cameraLoopCallback_fields (s : State) :
    (cameraLoopCallback s).1.currentPosition = s.currentPosition + 1
    ∧ (cameraLoopCallback s).1.cameraPositions = s.cameraPositions := by
  unfold cameraLoopCallback
  dsimp only
  split
  · exact ⟨rfl, rfl⟩
  · split <;> exact ⟨rfl, rfl⟩

theorem cameraTicks_succ (k : Nat) (s : State) :
    cameraTicks (k + 1) s = (cameraLoopCallback (cameraTicks k s)).1 := by
  unfold cameraTicks
  rw [Function.iterate_succ_apply']

theorem cameraTicks_fields (k : Nat) (s : State) :
    (cameraTicks k s).currentPosition = s.currentPosition + k
    ∧ (cameraTicks k s).cameraPositions = s.cameraPositions := by
  induction k with
  | zero => exact ⟨rfl, rfl⟩
  | succ k ih =>
    rw [cameraTicks_succ]
    have h := cameraLoopCallback_fields (cameraTicks k s)
    exact ⟨by rw [h.1, ih.1, Nat.add_assoc], by rw [h.2, ih.2]⟩

theorem cameraLoopCallback_in_bounds (s : State) (hne : s.cameraPositions ≠ []) :
    (cameraLoopCallback s).2 = Completion.normal
    ∧ s.cameraPositions[(s.currentPosition + 1) % s.cameraPositions.length]?
        = some (cameraLoopCallback s).1.cameraPosition := by
  have hlen : 0 < s.cameraPositions.length := List.length_pos.mpr hne
  have hlt : (s.currentPosition + 1) % s.cameraPositions.length < s.cameraPositions.length :=
    Nat.mod_lt _ hlen
  unfold cameraLoopCallback
  dsimp only
  rw [if_neg (Nat.pos_iff_ne_zero.mp hlen)]
  rw [List.getElem?_eq_getElem hlt]
  exact ⟨rfl, rfl⟩

theorem camera_tick_position (s : State) (j : Nat) (hne : s.cameraPositions ≠ [])
    (h0 : s.currentPosition = 0) :
    (cameraLoopCallback (cameraTicks j s)).2 = Completion.normal
    ∧ s.cameraPositions[(j + 1) % s.cameraPositions.length]?
        = some (cameraTicks (j + 1) s).cameraPosition := by
  have hf := cameraTicks_fields j s
  have hb := cameraLoopCallback_in_bounds (cameraTicks j s) (by rw [hf.2]; exact hne)
  rw [hf.1, hf.2, h0, Nat.zero_add] at hb
  rw [cameraTicks_succ]
  exact hb

/-- C2. For a non-empty list of camera positions of length `n`, a cursor
starting at 0 and every `k ≥ 1`, the `k`-th firing of the camera callback ends
normally, its index `k % n` is in bounds, and it leaves the camera at
`positions[k % n]`. Over `[A, B, C]` the first six firings visit
`B, C, A, B, C, A`; over a list of one point every firing selects that point. -/
theorem cameraLoop_visits (s : State) (k : Nat) (hk : 1 ≤ k)
    (hne : s.cameraPositions ≠ []) (h0 : s.currentPosition = 0) :
    (cameraLoopCallback (cameraTicks (k - 1) s)).2 = Completion.normal
    ∧ k % s.cameraPositions.length < s.cameraPositions.length
    ∧ s.cameraPositions[k % s.cameraPositions.length]?
        = some (cameraTicks k s).cameraPosition
    ∧ (∀ A B C, s.cameraPositions = [A, B, C] →
        (List.range 6).map (fun j => (cameraTicks (j + 1) s).cameraPosition)
          = [B, C, A, B, C, A])
    ∧ (∀ A, s.cameraPositions = [A] → (cameraTicks k s).cameraPosition = A) := by
  obtain ⟨j, rfl⟩ : ∃ j, k = j + 1 := ⟨k - 1, by omega⟩
  have hj := camera_tick_position s j hne h0
  refine ⟨by simpa using hj.1, Nat.mod_lt _ (List.length_pos.mpr hne), hj.2, ?_, ?_⟩
  · intro A B C hABC
    have h : ∀ i r, (i + 1) % 3 = r →
        [A, B, C][r]? = some (cameraTicks (i + 1) s).cameraPosition := by
      intro i r hr
      have hi := (camera_tick_position s i hne h0).2
      rw [hABC] at hi
      rw [← hr]
      exact hi
    have e0 : some B = some (cameraTicks 1 s).cameraPosition := h 0 1 (by decide)
    have e1 : some C = some (cameraTicks 2 s).cameraPosition := h 1 2 (by decide)
    have e2 : some A = some (cameraTicks 3 s).cameraPosition := h 2 0 (by decide)
    have e3 : some B = some (cameraTicks 4 s).cameraPosition := h 3 1 (by decide)
    have e4 : some C = some (cameraTicks 5 s).cameraPosition := h 4 2 (by decide)
    have e5 : some A = some (cameraTicks 6 s).cameraPosition := h 5 0 (by decide)
    simp only [Option.some.injEq] at e0 e1 e2 e3 e4 e5
    simp [List.range, List.range.loop, ← e0, ← e1, ← e2, ← e3, ← e4, ← e5]
  · intro A hA
    have h := hj.2
    rw [hA, List.length_singleton, Nat.mod_one] at h
    exact (Option.some.inj h).symm

theorem cameraLoop_visits_witness :
    1 ≤ 7 ∧ initialState.cameraPositions[7 % initialState.cameraPositions.length]?
        = some (cameraTicks 7 initialState).cameraPosition :=
  ⟨by decide, (cameraLoop_visits initialState 7 (by decide) (by decide) rfl).2.2.1⟩

/-! ## The event loop: what every turn preserves -/

theorem run_nil (s : State) : run [] s = s := rfl

theorem run_cons (e : Event) (evs : List Event) (s : State) :
    run (e :: evs) s = run evs (step s e) := rfl

theorem run_append (xs ys : List Event) (s : State) :
    run (xs ++ ys) s = run ys (run xs s) := by
  simp [run, List.foldl_append]

theorem running_BeginTest (s : State) : Running (BeginTest s) := by
  simp [Running, BeginTest, startClockTimer, beginCameraLoop]

theorem samplerCallback_running (loc : Int → List Char) (el : ℚ) (m : Option Int) (s : State)
    (h : s.readyToTest = true) :
    (samplerCallback loc el m s).1.testResults = s.testResults ++ [s.fps]
    ∧ (samplerCallback loc el m s).1.readyToTest = true
    ∧ (samplerCallback loc el m s).1.samplerTimers = s.samplerTimers
    ∧ (samplerCallback loc el m s).1.fps = s.fps := by
  cases m <;> simp [samplerCallback, h]

theorem samplerCallback_available (loc : Int → List Char) (el : ℚ) (b : Int) (s : State)
    (h : s.readyToTest = true) :
    (samplerCallback loc el (some b) s).1.memoryUsage
        = s.memoryUsage ++ [mathRound ((b : ℚ) / 1048576)]
    ∧ (samplerCallback loc el (some b) s).2 = Completion.normal := by
  simp [samplerCallback, h]

theorem cameraLoopCallback_keeps (s : State) :
    (cameraLoopCallback s).1.readyToTest = s.readyToTest
    ∧ (cameraLoopCallback s).1.samplerTimers = s.samplerTimers
    ∧ (cameraLoopCallback s).1.testResults = s.testResults
    ∧ (cameraLoopCallback s).1.memoryUsage = s.memoryUsage
    ∧ (cameraLoopCallback s).1.fps = s.fps := by
  unfold cameraLoopCallback
  dsimp only
  split
  · exact ⟨rfl, rfl, rfl, rfl, rfl⟩
  · split <;> exact ⟨rfl, rfl, rfl, rfl, rfl⟩

theorem step_running (s : State) (e : Event) (h : Running s) : Running (step s e) := by
  obtain ⟨hr, ht⟩ := h
  have hne : s.samplerTimers ≠ 0 := Nat.pos_iff_ne_zero.mp ht
  cases e with
  | frame now => simp [Running, step, hr, fpsCounterLoop, ht]
  | samplerTick el m loc =>
    have hs := samplerCallback_running loc el m s hr
    simp only [Running, step, if_neg hne]
    exact ⟨hs.2.1, by rw [hs.2.2.1]; exact ht⟩
  | cameraTick =>
    have hc := cameraLoopCallback_keeps s
    simp only [Running, step]
    split
    · exact ⟨hr, ht⟩
    · exact ⟨by rw [hc.1]; exact hr, by rw [hc.2.1]; exact ht⟩
  | beginTest => exact running_BeginTest s
  | resolution v => exact ⟨hr, ht⟩
  | refresh v => exact ⟨hr, ht⟩
  | antialiasing v => exact ⟨hr, ht⟩
  | resize w h => exact ⟨hr, ht⟩
  | save => exact ⟨hr, ht⟩

theorem run_running (evs : List Event) (s : State) (h : Running s) : Running (run evs s) := by
  induction evs generalizing s with
  | nil => exact h
  | cons e evs ih => exact ih (step s e) (step_running s e h)

/-- A turn that is not a sampler firing leaves both series as they are. -/
theorem step_series_other (s : State) (e : Event) (he : e.isSamplerTick = false) :
    (step s e).testResults = s.testResults ∧ (step s e).memoryUsage = s.memoryUsage := by
  cases e with
  | frame now =>
    simp only [step]
    split <;> exact ⟨rfl, rfl⟩
  | samplerTick el m loc => simp [Event.isSamplerTick] at he
  | cameraTick =>
    have hc := cameraLoopCallback_keeps s
    simp only [step]
    split
    · exact ⟨rfl, rfl⟩
    · exact ⟨hc.2.2.1, hc.2.2.2.1⟩
  | beginTest => exact ⟨rfl, rfl⟩
  | resolution v => exact ⟨rfl, rfl⟩
  | refresh v => exact ⟨rfl, rfl⟩
  | antialiasing v => exact ⟨rfl, rfl⟩
  | resize w h => exact ⟨rfl, rfl⟩
  | save => exact ⟨rfl, rfl⟩

/-- A sampler firing with the probe available appends one entry to each series. -/
theorem step_series_tick (loc : Int → List Char) (s : State) (el : ℚ) (b : Int) (h : Running s) :
    (step s (Event.samplerTick el (some b) loc)).testResults = s.testResults ++ [s.fps]
    ∧ (step s (Event.samplerTick el (some b) loc)).memoryUsage
        = s.memoryUsage ++ [mathRound ((b : ℚ) / 1048576)] := by
  have hne : s.samplerTimers ≠ 0 := Nat.pos_iff_ne_zero.mp h.2
  simp only [step, if_neg hne]
  exact ⟨(samplerCallback_running loc el (some b) s h.1).1,
    (samplerCallback_available loc el b s h.1).1⟩

/-- While running with the probe available, a sequence of turns appends to
each series one entry per sampler firing. -/
theorem run_series_grow (evs : List Event) (s : State) (h : Running s)
    (hp : ∀ e ∈ evs, e.probeAvailable = true) :
    ∃ l m, (run evs s).testResults = s.testResults ++ l
      ∧ (run evs s).memoryUsage = s.memoryUsage ++ m
      ∧ l.length = evs.countP Event.isSamplerTick
      ∧ m.length = evs.countP Event.isSamplerTick := by
  induction evs generalizing s with
  | nil => exact ⟨[], [], by simp [run], by simp [run], rfl, rfl⟩
  | cons e evs ih =>
    have hp1 : ∀ x ∈ evs, x.probeAvailable = true :=
      fun x hx => hp x (List.mem_cons_of_mem _ hx)
    obtain ⟨l, m, hl, hm, hll, hml⟩ := ih (step s e) (step_running s e h) hp1
    rw [run_cons, hl, hm]
    cases hk : e.isSamplerTick with
    | false =>
      have ho := step_series_other s e hk
      refine ⟨l, m, by rw [ho.1], by rw [ho.2], ?_, ?_⟩
      · rw [hll, List.countP_cons_of_neg]; simp [hk]
      · rw [hml, List.countP_cons_of_neg]; simp [hk]
    | true =>
      cases e with
      | samplerTick el mem loc =>
        cases mem with
        | none =>
          have := hp (Event.samplerTick el none loc) (List.mem_cons_self _ _)
          simp [Event.probeAvailable] at this
        | some b =>
          have ht := step_series_tick loc s el b h
          refine ⟨s.fps :: l, mathRound ((b : ℚ) / 1048576) :: m, ?_, ?_, ?_, ?_⟩
          · rw [ht.1]; simp
          · rw [ht.2]; simp
          · rw [List.countP_cons_of_pos _ _ hk]; simp [hll]
          · rw [List.countP_cons_of_pos _ _ hk]; simp [hml]
      | frame now => simp [Event.isSamplerTick] at hk
      | cameraTick => simp [Event.isSamplerTick] at hk
      | beginTest => simp [Event.isSamplerTick] at hk
      | resolution v => simp [Event.isSamplerTick] at hk
      | refresh v => simp [Event.isSamplerTick] at hk
      | antialiasing v => simp [Event.isSamplerTick] at hk
      | resize w h => simp [Event.isSamplerTick] at hk
      | save => simp [Event.isSamplerTick] at hk

theorem getElem?_append_cons {α : Type} (l1 l2 : List α) (x : α) :
    (l1 ++ x :: l2)[l1.length]? = some x := by
  induction l1 with
  | nil => simp
  | cons a l1 ih => simpa using ih

theorem mathRound_nearest (x : ℚ) : |((mathRound x : Int) : ℚ) - x| ≤ 1 / 2 := by
  unfold mathRound
  have h1 : ((⌊x + 1 / 2⌋ : Int) : ℚ) ≤ x + 1 / 2 := Int.floor_le _
  have h2 : x + 1 / 2 < ((⌊x + 1 / 2⌋ : Int) : ℚ) + 1 := Int.lt_floor_add_one _
  rw [abs_le]
  constructor <;> linarith

/-- C3. After `BeginTest` from the initial state, over any sequence of turns
of the event loop in which every sampler firing finds the memory probe,
`testResults` and `memoryUsage` both have as many entries as there were
sampler firings; the entry of the `i`-th firing is, in `testResults`, the
value of `fps` when it fired and, in `memoryUsage`, the probed byte count
divided by 1048576 and rounded, which is within one half of the quotient.
Five firings at a steady `fps` of 60 and 209715200 bytes of heap give
`[60,60,60,60,60]` and `[200,200,200,200,200]`. -/
theorem sampler_series (evs : List Event) (hp : ∀ e ∈ evs, e.probeAvailable = true) :
    (run evs (BeginTest initialState)).testResults.length = evs.countP Event.isSamplerTick
    ∧ (run evs (BeginTest initialState)).memoryUsage.length
        = evs.countP Event.isSamplerTick
    ∧ (∀ pre el b loc post, evs = pre ++ Event.samplerTick el (some b) loc :: post →
        (run evs (BeginTest initialState)).testResults[pre.countP Event.isSamplerTick]?
            = some (run pre (BeginTest initialState)).fps
        ∧ (run evs (BeginTest initialState)).memoryUsage[pre.countP Event.isSamplerTick]?
            = some (mathRound ((b : ℚ) / 1048576))
        ∧ |((mathRound ((b : ℚ) / 1048576) : Int) : ℚ) - (b : ℚ) / 1048576| ≤ 1 / 2)
    ∧ (∀ pre e1 e2 e3 e4 e5 loc1 loc2 loc3 loc4 loc5,
        pre.countP Event.isSamplerTick = 0 →
        (run pre (BeginTest initialState)).fps = some 60 →
        evs = pre ++ [Event.samplerTick e1 (some 209715200) loc1,
          Event.samplerTick e2 (some 209715200) loc2, Event.samplerTick e3 (some 209715200) loc3,
          Event.samplerTick e4 (some 209715200) loc4,
          Event.samplerTick e5 (some 209715200) loc5] →
        (run evs (BeginTest initialState)).testResults
            = [some 60, some 60, some 60, some 60, some 60]
        ∧ (run evs (BeginTest initialState)).memoryUsage = [200, 200, 200, 200, 200]) := by
  have hrun := running_BeginTest initialState
  obtain ⟨l, m, hl, hm, hll, hml⟩ := run_series_grow evs _ hrun hp
  have h0 : (BeginTest initialState).testResults = [] := rfl
  have h1 : (BeginTest initialState).memoryUsage = [] := rfl
  refine ⟨by rw [hl, h0]; simpa using hll, by rw [hm, h1]; simpa using hml, ?_, ?_⟩
  · intro pre el b loc post hevs
    subst hevs
    have hpre : ∀ e ∈ pre, e.probeAvailable = true :=
      fun e he => hp e (List.mem_append_left _ he)
    have hpost : ∀ e ∈ post, e.probeAvailable = true :=
      fun e he => hp e (List.mem_append_right _ (List.mem_cons_of_mem _ he))
    obtain ⟨l1, m1, hl1, hm1, hll1, hml1⟩ := run_series_grow pre _ hrun hpre
    have hr1 := run_running pre _ hrun
    have ht := step_series_tick loc (run pre (BeginTest initialState)) el b hr1
    obtain ⟨l2, m2, hl2, hm2, _, _⟩ :=
      run_series_grow post _ (step_running _ (Event.samplerTick el (some b) loc) hr1) hpost
    rw [run_append, run_cons, hl2, hm2, ht.1, ht.2, hl1, hm1, h0, h1]
    refine ⟨?_, ?_, mathRound_nearest _⟩
    · rw [← hll1]
      simp only [List.nil_append, List.append_assoc, List.singleton_append]
      exact getElem?_append_cons l1 l2 _
    · rw [← hml1]
      simp only [List.nil_append, List.append_assoc, List.singleton_append]
      exact getElem?_append_cons m1 m2 _
  · intro pre e1 e2 e3 e4 e5 loc1 loc2 loc3 loc4 loc5 hc hfps hevs
    subst hevs
    have hpre : ∀ e ∈ pre, e.probeAvailable = true :=
      fun e he => hp e (List.mem_append_left _ he)
    obtain ⟨l1, m1, hl1, hm1, hll1, hml1⟩ := run_series_grow pre _ hrun hpre
    rw [hc, List.length_eq_zero] at hll1 hml1
    subst hll1
    subst hml1
    rw [h0] at hl1
    rw [h1] at hm1
    have hr1 := run_running pre _ hrun
    have hmb2 : mathRound (((209715200 : Int) : ℚ) / 1048576) = 200 := by
      unfold mathRound
      norm_num [Int.floor_eq_iff]
    have tick : ∀ (s : State) (el : ℚ) (loc : Int → List Char), Running s → s.fps = some 60 →
        Running (step s (Event.samplerTick el (some 209715200) loc))
        ∧ (step s (Event.samplerTick el (some 209715200) loc)).fps = some 60
        ∧ (step s (Event.samplerTick el (some 209715200) loc)).testResults
            = s.testResults ++ [some 60]
        ∧ (step s (Event.samplerTick el (some 209715200) loc)).memoryUsage
            = s.memoryUsage ++ [200] := by
      intro s el loc hs hf
      have ht := step_series_tick loc s el 209715200 hs
      refine ⟨step_running s _ hs, ?_, by rw [ht.1, hf], by rw [ht.2, hmb2]⟩
      have hne : s.samplerTimers ≠ 0 := Nat.pos_iff_ne_zero.mp hs.2
      simp only [step, if_neg hne]
      rw [(samplerCallback_running loc el _ s hs.1).2.2.2, hf]
    rw [run_append]
    obtain ⟨r1, f1, t1, u1⟩ := tick _ e1 loc1 hr1 hfps
    obtain ⟨r2, f2, t2, u2⟩ := tick _ e2 loc2 r1 f1
    obtain ⟨r3, f3, t3, u3⟩ := tick _ e3 loc3 r2 f2
    obtain ⟨r4, f4, t4, u4⟩ := tick _ e4 loc4 r3 f3
    obtain ⟨_, _, t5, u5⟩ := tick _ e5 loc5 r4 f4
    simp only [run_cons, run_nil]
    rw [t5, t4, t3, t2, t1, u5, u4, u3, u2, u1, hl1, hm1]
    exact ⟨rfl, rfl⟩

theorem sampler_series_witness :
    (∀ e ∈ [Event.frame 0, Event.samplerTick 1 (some 209715200) numberToString],
        e.probeAvailable = true)
    ∧ (run [Event.frame 0, Event.samplerTick 1 (some 209715200) numberToString]
        (BeginTest initialState)).testResults.length
      = [Event.frame 0, Event.samplerTick 1 (some 209715200) numberToString].countP Event.isSamplerTick :=
  ⟨by simp [Event.probeAvailable],
    (sampler_series [Event.frame 0, Event.samplerTick 1 (some 209715200) numberToString]
      (by simp [Event.probeAvailable])).1⟩

/-! ## Text: lines, digits and joins -/

theorem splitLines_ne_nil (l : List Char) : splitLines l ≠ [] := by
  induction l with
  | nil => simp [splitLines]
  | cons c cs ih =>
    unfold splitLines
    split
    · simp
    · split <;> simp

theorem splitLines_no_newline (l : List Char) (h : '\n' ∉ l) : splitLines l = [l] := by
  induction l with
  | nil => rfl
  | cons c cs ih =>
    have hc : c ≠ '\n' := fun e => h (by rw [e]; exact List.mem_cons_self _ _)
    have hcs : '\n' ∉ cs := fun e => h (List.mem_cons_of_mem _ e)
    unfold splitLines
    rw [if_neg hc, ih hcs]

theorem splitLines_append (a b : List Char) :
    splitLines (a ++ '\n' :: b) = splitLines a ++ splitLines b := by
  induction a with
  | nil => simp [splitLines]
  | cons c cs ih =>
    by_cases hc : c = '\n'
    · simp [splitLines, hc, ih]
    · obtain ⟨l, ls, hl⟩ : ∃ l ls, splitLines cs = l :: ls := by
        cases h : splitLines cs with
        | nil => exact absurd h (splitLines_ne_nil cs)
        | cons l ls => exact ⟨l, ls, rfl⟩
      simp [splitLines, hc, ih, hl]

/-- A line without line feed, followed by a line feed, is the first line. -/
theorem splitLines_line (l rest : List Char) (h : '\n' ∉ l) :
    splitLines (l ++ '\n' :: rest) = l :: splitLines rest := by
  rw [splitLines_append, splitLines_no_newline l h]
  rfl

theorem digitChar_ne_newline : ∀ k, k < 10 → Nat.digitChar k ≠ '\n' := by
  decide

theorem toDigitsCore_no_newline (fuel n : Nat) (ds : List Char) (h : '\n' ∉ ds) :
    '\n' ∉ Nat.toDigitsCore 10 fuel n ds := by
  induction fuel generalizing n ds with
  | zero => simpa [Nat.toDigitsCore] using h
  | succ fuel ih =>
    have hd : '\n' ∉ Nat.digitChar (n % 10) :: ds := by
      intro hm
      rcases List.mem_cons.mp hm with e | e
      · exact digitChar_ne_newline _ (Nat.mod_lt n (by decide)) e.symm
      · exact h e
    unfold Nat.toDigitsCore
    dsimp only
    split
    · exact hd
    · exact ih _ _ hd

theorem numberToString_no_newline (z : Int) : '\n' ∉ numberToString z := by
  unfold numberToString Nat.toDigits
  split
  · intro hm
    rcases List.mem_cons.mp hm with e | e
    · exact absurd e (by decide)
    · exact toDigitsCore_no_newline _ _ [] (by simp) e
  · exact toDigitsCore_no_newline _ _ [] (by simp)

theorem arrayJoin_eq_intercalate (sep : List Char) (xs : List (List Char)) :
    arrayJoin sep xs = sep.intercalate xs := by
  induction xs with
  | nil => rfl
  | cons x rest ih =>
    cases rest with
    | nil => simp [arrayJoin, List.intercalate]
    | cons y rest =>
      rw [arrayJoin, ih]
      simp [List.intercalate, List.intersperse]

theorem arrayJoin_no_newline (xs : List (List Char)) (h : ∀ x ∈ xs, '\n' ∉ x) :
    '\n' ∉ arrayJoin [','] xs := by
  induction xs with
  | nil => simp [arrayJoin]
  | cons x rest ih =>
    have hx := h x (List.mem_cons_self _ _)
    have hrest : ∀ y ∈ rest, '\n' ∉ y := fun y hy => h y (List.mem_cons_of_mem _ hy)
    cases rest with
    | nil => simpa [arrayJoin] using hx
    | cons y rest =>
      rw [arrayJoin]
      intro hm
      rcases List.mem_append.mp hm with e | e
      · rcases List.mem_append.mp e with e | e
        · exact hx e
        · simp at e
      · exact ih hrest e

theorem arrayToString_no_newline (xs : List (Option Int)) : '\n' ∉ arrayToString xs := by
  apply arrayJoin_no_newline
  intro x hx
  obtain ⟨o, _, rfl⟩ := List.mem_map.mp hx
  cases o with
  | none => simp [joinElement]
  | some z => exact numberToString_no_newline z

theorem arrayToString_some (xs : List Int) :
    arrayToString (xs.map some) = [','].intercalate (xs.map numberToString) := by
  unfold arrayToString
  rw [arrayJoin_eq_intercalate, List.map_map]
  rfl

theorem templateValue_no_newline (v : Option Int) : '\n' ∉ templateValue v := by
  cases v with
  | none => decide
  | some z => exact numberToString_no_newline z

/-! ## The exported document -/

theorem splitLines_newline (rest : List Char) :
    splitLines ('\n' :: rest) = [] :: splitLines rest := by
  simp [splitLines]

theorem SaveTestResults_lines (date : List Char) (s : State) :
    splitLines (SaveTestResults date s)
      = ["Three.js performance test results ".toList, []]
        ++ splitLines ("          Testing date: ".toList ++ date ++ "; ".toList)
        ++ [[],
            "          Resolution: width: ".toList ++ numberToString s.sizes.width
              ++ ", height: ".toList ++ numberToString s.sizes.height ++ " ".toList,
            [],
            "          Refresh rate: ".toList ++ numberToString s.refreshRate ++ " ".toList,
            [],
            "          MSAA: ".toList ++ templateValue s.msaaSamples ++ " ".toList,
            [],
            "          Frames per second (each FPS count in array was ticked every second):".toList,
            "          ".toList ++ arrayToString s.testResults ++ " ".toList,
            [],
            "          Memory usage (in Megabytes):".toList,
            "          ".toList ++ arrayToString (s.memoryUsage.map some),
            "          ".toList] := by
  have hw := numberToString_no_newline s.sizes.width
  have hh := numberToString_no_newline s.sizes.height
  have hr := numberToString_no_newline s.refreshRate
  have hm := templateValue_no_newline s.msaaSamples
  have hf := arrayToString_no_newline s.testResults
  have hu := arrayToString_no_newline (s.memoryUsage.map some)
  have l1 : "Three.js performance test results \n\n          Testing date: ".toList
      = "Three.js performance test results ".toList ++ '\n' :: '\n' ::
        "          Testing date: ".toList := by decide
  have l2 : "; \n\n          Resolution: width: ".toList
      = "; ".toList ++ '\n' :: '\n' :: "          Resolution: width: ".toList := by decide
  have l3 : " \n\n          Refresh rate: ".toList
      = " ".toList ++ '\n' :: '\n' :: "          Refresh rate: ".toList := by decide
  have l4 : " \n\n          MSAA: ".toList
      = " ".toList ++ '\n' :: '\n' :: "          MSAA: ".toList := by decide
  have l5 : " \n\n          Frames per second (each FPS count in array was ticked every second):\n          ".toList
      = " ".toList ++ '\n' :: '\n' ::
        ("          Frames per second (each FPS count in array was ticked every second):".toList
          ++ '\n' :: "          ".toList) := by decide
  have l6 : " \n\n          Memory usage (in Megabytes):\n          ".toList
      = " ".toList ++ '\n' :: '\n' :: ("          Memory usage (in Megabytes):".toList
          ++ '\n' :: "          ".toList) := by decide
  have l7 : "\n          ".toList = '\n' :: "          ".toList := by decide
  have n1 : '\n' ∉ "          Resolution: width: ".toList ++ numberToString s.sizes.width
      ++ ", height: ".toList ++ numberToString s.sizes.height ++ " ".toList := by
    simp [hw, hh]
  have n2 : '\n' ∉ "          Refresh rate: ".toList ++ numberToString s.refreshRate
      ++ " ".toList := by
    simp [hr]
  have n3 : '\n' ∉ "          MSAA: ".toList ++ templateValue s.msaaSamples ++ " ".toList := by
    simp [hm]
  have n4 : '\n' ∉ "          ".toList ++ arrayToString s.testResults ++ " ".toList := by
    simp [hf]
  have n5 : '\n' ∉ "          ".toList ++ arrayToString (s.memoryUsage.map some) := by
    simp [hu]
  have e : SaveTestResults date s
      = "Three.js performance test results ".toList ++ '\n' :: '\n' ::
        (("          Testing date: ".toList ++ date ++ "; ".toList) ++ '\n' :: '\n' ::
        (("          Resolution: width: ".toList ++ numberToString s.sizes.width
              ++ ", height: ".toList ++ numberToString s.sizes.height ++ " ".toList)
          ++ '\n' :: '\n' ::
        (("          Refresh rate: ".toList ++ numberToString s.refreshRate ++ " ".toList)
          ++ '\n' :: '\n' ::
        (("          MSAA: ".toList ++ templateValue s.msaaSamples ++ " ".toList)
          ++ '\n' :: '\n' ::
        ("          Frames per second (each FPS count in array was ticked every second):".toList
          ++ '\n' ::
        (("          ".toList ++ arrayToString s.testResults ++ " ".toList)
          ++ '\n' :: '\n' ::
        ("          Memory usage (in Megabytes):".toList ++ '\n' ::
        (("          ".toList ++ arrayToString (s.memoryUsage.map some))
          ++ '\n' :: "          ".toList)))))))) := by
    unfold SaveTestResults
    rw [l1, l2, l3, l4, l5, l6, l7]
    simp only [List.append_assoc, List.cons_append, List.nil_append]
  rw [e]
  rw [splitLines_line _ _ (show '\n' ∉ "Three.js performance test results ".toList by decide),
    splitLines_newline, splitLines_append, splitLines_newline,
    splitLines_line _ _ n1, splitLines_newline,
    splitLines_line _ _ n2, splitLines_newline,
    splitLines_line _ _ n3, splitLines_newline,
    splitLines_line _ _ (show '\n' ∉ "          Frames per second (each FPS count in array was ticked every second):".toList by decide),
    splitLines_line _ _ n4, splitLines_newline,
    splitLines_line _ _ (show '\n' ∉ "          Memory usage (in Megabytes):".toList by decide),
    splitLines_line _ _ n5,
    splitLines_no_newline _ (show '\n' ∉ "          ".toList by decide)]
  simp only [List.cons_append, List.nil_append, List.append_assoc]

/-- The text of an integer is its decimal numeral, as `toString` prints it. -/
theorem numberToString_eq_toString (z : Int) : numberToString z = (toString z).toList := by
  cases z with
  | ofNat n =>
    have h : ¬ ((Int.ofNat n) < 0) := by simp
    simp only [numberToString, if_neg h]
    rfl
  | negSucc n =>
    have h : (Int.negSucc n) < 0 := Int.negSucc_lt_zero n
    simp only [numberToString, if_pos h]
    rfl

/-- C4. For every FPS series and memory series of integers and every
resolution, the lines of the text built by `SaveTestResults` are: the title,
an empty line, the date line(s), then in this order an empty line, the
resolution line with the decimal width and height, an empty line, the
refresh-rate line, an empty line, the MSAA line, an empty line, the heading
`Frames per second ...`, the line made of the indentation, the FPS series as
decimal integers joined by `,` without spaces and one blank, an empty line,
the heading `Memory usage ...`, the line made of the indentation and the
memory series joined the same way, and the indentation. With both series
empty the two series lines hold no numeral and every other line is the same.
For `[10,20,30]`, `[100,150,200]` and 1920x1080 the series lines read
`10,20,30` and `100,150,200` and the resolution line holds `1920` and `1080`. -/
theorem export_series_lines (s : State) (date : List Char) (fpsSeries memSeries : List Int)
    (w h : Int) :
    splitLines (SaveTestResults date
        { s with testResults := fpsSeries.map some, memoryUsage := memSeries, sizes := ⟨w, h⟩ })
      = ["Three.js performance test results ".toList, []]
        ++ splitLines ("          Testing date: ".toList ++ date ++ "; ".toList)
        ++ [[],
            "          Resolution: width: ".toList ++ (toString w).toList
              ++ ", height: ".toList ++ (toString h).toList ++ " ".toList,
            [],
            "          Refresh rate: ".toList ++ numberToString s.refreshRate ++ " ".toList,
            [],
            "          MSAA: ".toList ++ templateValue s.msaaSamples ++ " ".toList,
            [],
            "          Frames per second (each FPS count in array was ticked every second):".toList,
            "          ".toList
              ++ [','].intercalate (fpsSeries.map (fun z => (toString z).toList))
              ++ " ".toList,
            [],
            "          Memory usage (in Megabytes):".toList,
            "          ".toList
              ++ [','].intercalate (memSeries.map (fun z => (toString z).toList)),
            "          ".toList]
    ∧ splitLines (SaveTestResults date
        { s with testResults := [], memoryUsage := [], sizes := ⟨w, h⟩ })
      = ["Three.js performance test results ".toList, []]
        ++ splitLines ("          Testing date: ".toList ++ date ++ "; ".toList)
        ++ [[],
            "          Resolution: width: ".toList ++ (toString w).toList
              ++ ", height: ".toList ++ (toString h).toList ++ " ".toList,
            [],
            "          Refresh rate: ".toList ++ numberToString s.refreshRate ++ " ".toList,
            [],
            "          MSAA: ".toList ++ templateValue s.msaaSamples ++ " ".toList,
            [],
            "          Frames per second (each FPS count in array was ticked every second):".toList,
            "           ".toList,
            [],
            "          Memory usage (in Megabytes):".toList,
            "          ".toList,
            "          ".toList]
    ∧ splitLines (SaveTestResults date
        { s with testResults := [some 10, some 20, some 30],
                 memoryUsage := [100, 150, 200], sizes := ⟨1920, 1080⟩ })
      = ["Three.js performance test results ".toList, []]
        ++ splitLines ("          Testing date: ".toList ++ date ++ "; ".toList)
        ++ [[],
            "          Resolution: width: 1920, height: 1080 ".toList,
            [],
            "          Refresh rate: ".toList ++ numberToString s.refreshRate ++ " ".toList,
            [],
            "          MSAA: ".toList ++ templateValue s.msaaSamples ++ " ".toList,
            [],
            "          Frames per second (each FPS count in array was ticked every second):".toList,
            "          10,20,30 ".toList,
            [],
            "          Memory usage (in Megabytes):".toList,
            "          100,150,200".toList,
            "          ".toList] := by
  have hfun : (fun z : Int => (toString z).toList) = numberToString := by
    funext z
    exact (numberToString_eq_toString z).symm
  refine ⟨?_, ?_, ?_⟩
  · rw [SaveTestResults_lines, hfun, ← numberToString_eq_toString, ← numberToString_eq_toString]
    simp only [arrayToString_some]
  · rw [SaveTestResults_lines, ← numberToString_eq_toString, ← numberToString_eq_toString]
    rfl
  · rw [SaveTestResults_lines]
    have r1 : "          Resolution: width: ".toList ++ numberToString 1920
        ++ ", height: ".toList ++ numberToString 1080 ++ " ".toList
        = "          Resolution: width: 1920, height: 1080 ".toList := by decide
    have r2 : "          ".toList ++ arrayToString [some 10, some 20, some 30] ++ " ".toList
        = "          10,20,30 ".toList := by decide
    have r3 : "          ".toList ++ arrayToString (List.map some [100, 150, 200])
        = "          100,150,200".toList := by decide
    simp only [r1, r2, r3]

/-! ## setResolution -/

/-- C5. `setResolution(v)` sets `sizes` to the value of the table (FullHD =
1920x1080, WQHD = 2560x1440, 4K = 3840x2160, any other label = 1920x1080),
leaves `refreshRate`, `msaaSamples` and the multisampling of the composer as
they are, and calls `composer.setSize` once with the new width and height; a
second call with the same `v` leaves the same display configuration as the
first and calls `composer.setSize` once more, twice in total. -/
theorem setResolution_idempotent (v : String) (s : State) :
    (setResolution v s).sizes = resolutionSizes v
    ∧ resolutionSizes "FullHD" = ⟨1920, 1080⟩
    ∧ resolutionSizes "WQHD" = ⟨2560, 1440⟩
    ∧ resolutionSizes "4K" = ⟨3840, 2160⟩
    ∧ (v ≠ "FullHD" → v ≠ "WQHD" → v ≠ "4K" → resolutionSizes v = ⟨1920, 1080⟩)
    ∧ (setResolution v s).refreshRate = s.refreshRate
    ∧ (setResolution v s).msaaSamples = s.msaaSamples
    ∧ (setResolution v s).composerMultisampling = s.composerMultisampling
    ∧ (setResolution v s).composerSetSizeCalls
        = s.composerSetSizeCalls ++ [((resolutionSizes v).width, (resolutionSizes v).height)]
    ∧ (setResolution v (setResolution v s)).sizes = (setResolution v s).sizes
    ∧ (setResolution v (setResolution v s)).refreshRate = (setResolution v s).refreshRate
    ∧ (setResolution v (setResolution v s)).msaaSamples = (setResolution v s).msaaSamples
    ∧ (setResolution v (setResolution v s)).composerMultisampling
        = (setResolution v s).composerMultisampling
    ∧ (setResolution v (setResolution v s)).composerSetSizeCalls
        = s.composerSetSizeCalls
          ++ [((resolutionSizes v).width, (resolutionSizes v).height),
              ((resolutionSizes v).width, (resolutionSizes v).height)] := by
  refine ⟨rfl, by decide, by decide, by decide, ?_, rfl, rfl, rfl, rfl, rfl, rfl, rfl, rfl, ?_⟩
  · intro h1 h2 h3
    simp [resolutionSizes, h1, h2, h3]
  · simp [setResolution]

/-! ## The elapsed-time display -/

theorem numberToString_natCast (n : Nat) : numberToString (n : Int) = Nat.toDigits 10 n := by
  have h : ¬ ((n : Int) < 0) := by omega
  simp [numberToString, h]

theorem seconds_two_digits : ∀ n, n < 60 →
    (if n < 10 then '0' :: Nat.toDigits 10 n else Nat.toDigits 10 n)
      = [Nat.digitChar (n / 10), Nat.digitChar (n % 10)] := by
  decide

theorem seconds_short : ∀ n, n < 60 → ((Nat.toDigits 10 n).length < 2 ↔ n < 10) := by
  decide

theorem mathRound_nonneg (t : ℚ) (ht : 0 ≤ t) : 0 ≤ mathRound t := by
  unfold mathRound
  exact Int.floor_nonneg.mpr (by linarith)

/-- The display in terms of the rounded reading, whatever the host writes
for a number. -/
theorem timeElapsedText_of_round (loc : Int → List Char) (t : ℚ) (r : Nat)
    (hr : mathRound t = (r : Int)) :
    timeElapsedText loc t
      = "Time elapsed: ".toList ++ loc ((r / 60 % 60 : Nat) : Int) ++ [':']
        ++ (if r % 60 < 10 then '0' :: loc ((r % 60 : Nat) : Int)
            else loc ((r % 60 : Nat) : Int)) := by
  have hsec : Int.tmod ⌊((r : Int) : ℚ)⌋ 60 = ((r % 60 : Nat) : Int) := by
    rw [Int.floor_intCast, Int.tmod_eq_emod (by omega) (by omega)]
    omega
  have hmin : Int.tmod ⌊((r : Int) : ℚ) / 60⌋ 60 = ((r / 60 % 60 : Nat) : Int) := by
    have h60 : ((r : Int) : ℚ) / 60 = ((r : Int) : ℚ) / ((60 : Nat) : ℚ) := by norm_num
    rw [h60, Rat.floor_intCast_div_natCast, Int.tmod_eq_emod (by omega) (by omega)]
    omega
  have hshort := seconds_short (r % 60) (Nat.mod_lt r (by decide))
  unfold timeElapsedText
  simp only [hr, hsec, hmin, numberToString_natCast]
  by_cases h10 : r % 60 < 10
  · rw [if_pos (hshort.mpr h10), if_pos h10]
  · rw [if_neg (fun h => h10 (hshort.mp h)), if_neg h10]

theorem samplerCallback_timeElapsed (loc : Int → List Char) (el : ℚ) (m : Option Int)
    (s : State) :
    (samplerCallback loc el m s).1.timeElapsed = some (timeElapsedText loc el) := by
  unfold samplerCallback
  dsimp only
  split
  · cases m <;> rfl
  · rfl

/-- C6, as amended. For every reading `t ≥ 0` of the timer at a sampler firing,
the elapsed-time display becomes `Time elapsed: `, then `M`, a colon and `SS`,
where `r` is `t` rounded to the nearest integer (a tie going up), `M` is
`r / 60 % 60` and `SS` is `r % 60`, each as `toLocaleString()` of the host
writes it, `SS` preceded by the character `0` when `r % 60 < 10`. In a host
whose default locale writes these two numbers as ASCII decimal numerals, `M` is
the decimal numeral of `r / 60 % 60` and `SS` is `r % 60` written with exactly
two decimal digits. -/
theorem elapsed_display_rounded (loc : Int → List Char) (t : ℚ) (ht : 0 ≤ t)
    (memory : Option Int) (s : State) :
    (samplerCallback loc t memory s).1.timeElapsed
      = some ("Time elapsed: ".toList
          ++ loc ((⌊t + 1 / 2⌋.toNat / 60 % 60 : Nat) : Int) ++ [':']
          ++ (if ⌊t + 1 / 2⌋.toNat % 60 < 10
              then '0' :: loc ((⌊t + 1 / 2⌋.toNat % 60 : Nat) : Int)
              else loc ((⌊t + 1 / 2⌋.toNat % 60 : Nat) : Int)))
    ∧ (loc ((⌊t + 1 / 2⌋.toNat / 60 % 60 : Nat) : Int)
          = numberToString ((⌊t + 1 / 2⌋.toNat / 60 % 60 : Nat) : Int) →
       loc ((⌊t + 1 / 2⌋.toNat % 60 : Nat) : Int)
          = numberToString ((⌊t + 1 / 2⌋.toNat % 60 : Nat) : Int) →
       (samplerCallback loc t memory s).1.timeElapsed
        = some ("Time elapsed: ".toList
            ++ Nat.toDigits 10 (⌊t + 1 / 2⌋.toNat / 60 % 60) ++ [':']
            ++ [Nat.digitChar (⌊t + 1 / 2⌋.toNat % 60 / 10),
                Nat.digitChar (⌊t + 1 / 2⌋.toNat % 60 % 10)])) := by
  have hr : mathRound t = ((⌊t + 1 / 2⌋.toNat : Nat) : Int) := by
    have := mathRound_nonneg t ht
    unfold mathRound at this ⊢
    omega
  have hd := timeElapsedText_of_round loc t _ hr
  have he := samplerCallback_timeElapsed loc t memory s
  refine ⟨by rw [he, hd], ?_⟩
  intro hM hS
  rw [he, hd, hM, hS, numberToString_natCast, numberToString_natCast,
    seconds_two_digits _ (Nat.mod_lt _ (by decide))]

theorem elapsed_display_rounded_witness :
    (0 : ℚ) ≤ 125 ∧
    (samplerCallback arabicIndicString 125 (some 0) (BeginTest initialState)).1.timeElapsed
      = some ("Time elapsed: ".toList
          ++ arabicIndicString ((⌊(125 : ℚ) + 1 / 2⌋.toNat / 60 % 60 : Nat) : Int) ++ [':']
          ++ (if ⌊(125 : ℚ) + 1 / 2⌋.toNat % 60 < 10
              then '0' :: arabicIndicString ((⌊(125 : ℚ) + 1 / 2⌋.toNat % 60 : Nat) : Int)
              else arabicIndicString ((⌊(125 : ℚ) + 1 / 2⌋.toNat % 60 : Nat) : Int))) :=
  ⟨by norm_num,
    (elapsed_display_rounded arabicIndicString 125 (by norm_num) (some 0)
      (BeginTest initialState)).1⟩

/-- C6 as written fails twice. After `Begin test`, a sampler firing that reads
one second and a half in a host writing ASCII numerals displays
`Time elapsed: 0:02`, where flooring the reading gives `Time elapsed: 0:01`;
and a firing that reads 125 seconds in a host writing Arabic-Indic digits
displays other characters than the decimal `Time elapsed: 2:05`. -/
theorem elapsed_display_not_floored :
    (step (BeginTest initialState)
        (Event.samplerTick (3 / 2) (some 0) numberToString)).timeElapsed
        = some "Time elapsed: 0:02".toList
    ∧ timeElapsedTextFloored (3 / 2) = "Time elapsed: 0:01".toList
    ∧ (step (BeginTest initialState)
        (Event.samplerTick (3 / 2) (some 0) numberToString)).timeElapsed
        ≠ some (timeElapsedTextFloored (3 / 2))
    ∧ (step (BeginTest initialState)
        (Event.samplerTick 125 (some 0) arabicIndicString)).timeElapsed
        = some "Time elapsed: ٢:0٥".toList
    ∧ timeElapsedTextFloored 125 = "Time elapsed: 2:05".toList
    ∧ (step (BeginTest initialState)
        (Event.samplerTick 125 (some 0) arabicIndicString)).timeElapsed
        ≠ some (timeElapsedTextFloored 125) := by
  have hstep : ∀ (el : ℚ) (loc : Int → List Char),
      (step (BeginTest initialState) (Event.samplerTick el (some 0) loc)).timeElapsed
        = some (timeElapsedText loc el) := by
    intro el loc
    have hne : (BeginTest initialState).samplerTimers ≠ 0 := by decide
    simp only [step, if_neg hne]
    exact samplerCallback_timeElapsed loc el (some 0) _
  have hr : mathRound (3 / 2) = ((2 : Nat) : Int) := by
    unfold mathRound
    norm_num
  have hr2 : mathRound 125 = ((125 : Nat) : Int) := by
    unfold mathRound
    norm_num [Int.floor_eq_iff]
  have h1 : (step (BeginTest initialState)
      (Event.samplerTick (3 / 2) (some 0) numberToString)).timeElapsed
      = some "Time elapsed: 0:02".toList := by
    rw [hstep, timeElapsedText_of_round numberToString (3 / 2) 2 hr]
    decide
  have h2 : timeElapsedTextFloored (3 / 2) = "Time elapsed: 0:01".toList := by
    have hf : ⌊(3 / 2 : ℚ)⌋ = 1 := by norm_num [Int.floor_eq_iff]
    unfold timeElapsedTextFloored
    simp only [hf]
    decide
  have h3 : (step (BeginTest initialState)
      (Event.samplerTick 125 (some 0) arabicIndicString)).timeElapsed
      = some "Time elapsed: ٢:0٥".toList := by
    rw [hstep, timeElapsedText_of_round arabicIndicString 125 125 hr2]
    decide
  have h4 : timeElapsedTextFloored 125 = "Time elapsed: 2:05".toList := by
    have hf : ⌊(125 : ℚ)⌋ = 125 := by norm_num [Int.floor_eq_iff]
    unfold timeElapsedTextFloored
    simp only [hf]
    decide
  refine ⟨h1, h2, ?_, h3, h4, ?_⟩
  · rw [h1, h2]
    decide
  · rw [h3, h4]
    decide

/-! ## The value the sampler records -/

/-- A turn that renders no frame leaves `fps` as it is. -/
theorem step_fps_other (s : State) (e : Event) (he : e.isFrame = false) :
    (step s e).fps = s.fps := by
  cases e with
  | frame now => simp [Event.isFrame] at he
  | samplerTick el m loc =>
    simp only [step]
    split
    · rfl
    · unfold samplerCallback
      dsimp only
      split
      · cases m <;> rfl
      · rfl
  | cameraTick =>
    simp only [step]
    split
    · rfl
    · exact (cameraLoopCallback_keeps s).2.2.2.2
  | beginTest => rfl
  | resolution v => rfl
  | refresh v => rfl
  | antialiasing v => rfl
  | resize w h => rfl
  | save => rfl

theorem run_fps_other (evs : List Event) (s : State) (h : ∀ e ∈ evs, e.isFrame = false) :
    (run evs s).fps = s.fps := by
  induction evs generalizing s with
  | nil => rfl
  | cons e evs ih =>
    rw [run_cons, ih (step s e) (fun x hx => h x (List.mem_cons_of_mem _ hx)),
      step_fps_other s e (h e (List.mem_cons_self _ _))]

/-- C7, as amended. While the session is running, once a frame has been
counted and whatever happens afterwards without a frame being rendered, the
value a sampler firing appends to `testResults` is the `fps` computed at that
last frame, and it is at least 1: it is never 0. -/
theorem sampler_records_last_frame (loc : Int → List Char) (s : State) (now : ℚ) (evs : List Event) (el : ℚ)
    (memory : Option Int) (hs : Running s) (hev : ∀ e ∈ evs, e.isFrame = false) :
    (step (run evs (step s (Event.frame now))) (Event.samplerTick el memory loc)).testResults
        = (run evs (step s (Event.frame now))).testResults
          ++ [(step s (Event.frame now)).fps]
    ∧ ∃ n : Int, (step s (Event.frame now)).fps = some n ∧ 1 ≤ n := by
  have h1 := step_running s (Event.frame now) hs
  have h2 := run_running evs _ h1
  have hne : (run evs (step s (Event.frame now))).samplerTimers ≠ 0 :=
    Nat.pos_iff_ne_zero.mp h2.2
  constructor
  · have ht : (step (run evs (step s (Event.frame now))) (Event.samplerTick el memory loc))
        = (samplerCallback loc el memory (run evs (step s (Event.frame now)))).1 := by
      show (if _ then _ else _) = _
      rw [if_neg hne]
    rw [ht, (samplerCallback_running loc el memory _ h2.1).1, run_fps_other evs _ hev]
  · refine ⟨((evict now s.times ++ [now]).length : Int), ?_, ?_⟩
    · simp [step, hs.1, fpsCounterLoop]
    · simp

theorem sampler_records_last_frame_witness :
    Running (BeginTest initialState)
    ∧ (∀ e ∈ [Event.refresh 60, Event.cameraTick], e.isFrame = false)
    ∧ (step (run [Event.refresh 60, Event.cameraTick]
          (step (BeginTest initialState) (Event.frame 0))) (Event.samplerTick 5 none numberToString)).testResults
        = (run [Event.refresh 60, Event.cameraTick]
            (step (BeginTest initialState) (Event.frame 0))).testResults
          ++ [(step (BeginTest initialState) (Event.frame 0)).fps] :=
  ⟨running_BeginTest initialState, by simp [Event.isFrame],
    (sampler_records_last_frame numberToString (BeginTest initialState) 0
      [Event.refresh 60, Event.cameraTick] 5 none (running_BeginTest initialState)
      (by simp [Event.isFrame])).1⟩

/-- C7 as written fails: after `Begin test`, one frame at 0 ms and a sampler
firing five seconds later with no frame in between, the value recorded is 1,
not 0. -/
theorem sampler_records_stale_fps :
    (run [Event.beginTest, Event.frame 0, Event.samplerTick 5 (some 0) numberToString]
        initialState).testResults = [some 1]
    ∧ (run [Event.beginTest, Event.frame 0, Event.samplerTick 5 (some 0) numberToString]
        initialState).testResults ≠ [some 0] := by
  have h : (run [Event.beginTest, Event.frame 0, Event.samplerTick 5 (some 0) numberToString]
      initialState).testResults = [some 1] := by
    simp [run, step, BeginTest, startClockTimer, beginCameraLoop, initialState,
      fpsCounterLoop, evict, samplerCallback]
  exact ⟨h, by rw [h]; decide⟩

/-! ## The sampler without memory probe -/

theorem sampler_without_probe_core (loc : Int → List Char) (el : ℚ) (s : State) (h : s.readyToTest = true) :
    (samplerCallback loc el none s).2 = Completion.typeError
    ∧ (samplerCallback loc el none s).1.testResults = s.testResults ++ [s.fps]
    ∧ (samplerCallback loc el none s).1.memoryUsage = s.memoryUsage
    ∧ (samplerCallback loc el none s).1.timeElapsed = some (timeElapsedText loc el)
    ∧ (samplerCallback loc el none s).1.samplerTimers = s.samplerTimers
    ∧ (samplerCallback loc el none s).1.readyToTest = true := by
  simp [samplerCallback, h]

/-- C8, as amended. When `performance.memory` is undefined, a sampler firing
in the running state writes the elapsed-time display, appends `fps` to
`testResults` and then ends with a `TypeError` before anything is appended to
`memoryUsage`: `testResults` gains one entry, `memoryUsage` gains none, and
the sampler interval stays registered. -/
theorem sampler_without_probe (loc : Int → List Char) (el : ℚ) (s : State) (h : s.readyToTest = true) :
    (samplerCallback loc el none s).2 = Completion.typeError
    ∧ (samplerCallback loc el none s).1.testResults = s.testResults ++ [s.fps]
    ∧ (samplerCallback loc el none s).1.memoryUsage = s.memoryUsage
    ∧ (samplerCallback loc el none s).1.timeElapsed = some (timeElapsedText loc el)
    ∧ (samplerCallback loc el none s).1.samplerTimers = s.samplerTimers
    ∧ (samplerCallback loc el none s).1.readyToTest = true :=
  sampler_without_probe_core loc el s h

theorem sampler_without_probe_witness :
    (BeginTest initialState).readyToTest = true
    ∧ (samplerCallback numberToString 1 none (BeginTest initialState)).2 = Completion.typeError :=
  ⟨rfl, (sampler_without_probe numberToString 1 (BeginTest initialState) rfl).1⟩

/-- C8 as written fails: after `Begin test` and one frame, a sampler firing
without memory probe ends with a `TypeError` and leaves one entry in
`testResults` and none in `memoryUsage`. -/
theorem sampler_without_probe_fails :
    (samplerCallback numberToString 1 none
        (run [Event.beginTest, Event.frame 0] initialState)).2 = Completion.typeError
    ∧ (samplerCallback numberToString 1 none
        (run [Event.beginTest, Event.frame 0] initialState)).1.testResults.length = 1
    ∧ (samplerCallback numberToString 1 none
        (run [Event.beginTest, Event.frame 0] initialState)).1.memoryUsage.length = 0
    ∧ ¬ ((samplerCallback numberToString 1 none
          (run [Event.beginTest, Event.frame 0] initialState)).2 = Completion.normal
        ∧ (samplerCallback numberToString 1 none
          (run [Event.beginTest, Event.frame 0] initialState)).1.testResults.length
          = (samplerCallback numberToString 1 none
          (run [Event.beginTest, Event.frame 0] initialState)).1.memoryUsage.length) := by
  have hr : (run [Event.beginTest, Event.frame 0] initialState).readyToTest = true := by
    simp [run, step, BeginTest, startClockTimer, beginCameraLoop, initialState, fpsCounterLoop]
  have ht : (run [Event.beginTest, Event.frame 0] initialState).testResults = [] := by
    simp [run, step, BeginTest, startClockTimer, beginCameraLoop, initialState, fpsCounterLoop]
  have hm : (run [Event.beginTest, Event.frame 0] initialState).memoryUsage = [] := by
    simp [run, step, BeginTest, startClockTimer, beginCameraLoop, initialState, fpsCounterLoop]
  obtain ⟨h1, h2, h3, _⟩ := sampler_without_probe_core numberToString 1 _ hr
  rw [h1, h2, h3, ht, hm]
  simp

/-! ## The antialiasing line of the export -/

theorem samplerCallback_keeps (loc : Int → List Char) (el : ℚ) (m : Option Int) (s : State) :
    (samplerCallback loc el m s).1.msaaSamples = s.msaaSamples
    ∧ (samplerCallback loc el m s).1.composerMultisampling = s.composerMultisampling
    ∧ (samplerCallback loc el m s).1.samplerTimers = s.samplerTimers
    ∧ (samplerCallback loc el m s).1.cameraTimers = s.cameraTimers
    ∧ (samplerCallback loc el m s).1.readyToTest = s.readyToTest
    ∧ (samplerCallback loc el m s).1.currentPosition = s.currentPosition := by
  unfold samplerCallback
  dsimp only
  split
  · cases m <;> exact ⟨rfl, rfl, rfl, rfl, rfl, rfl⟩
  · exact ⟨rfl, rfl, rfl, rfl, rfl, rfl⟩

theorem cameraLoopCallback_keeps_controls (s : State) :
    (cameraLoopCallback s).1.msaaSamples = s.msaaSamples
    ∧ (cameraLoopCallback s).1.composerMultisampling = s.composerMultisampling
    ∧ (cameraLoopCallback s).1.cameraTimers = s.cameraTimers := by
  unfold cameraLoopCallback
  dsimp only
  split
  · exact ⟨rfl, rfl, rfl⟩
  · split <;> exact ⟨rfl, rfl, rfl⟩

/-- A turn other than a change of the antialiasing selector leaves
`msaaSamples` and the multisampling of the composer as they are. -/
theorem step_msaa_other (s : State) (e : Event) (he : e.isAntialiasing = false) :
    (step s e).msaaSamples = s.msaaSamples
    ∧ (step s e).composerMultisampling = s.composerMultisampling := by
  cases e with
  | frame now =>
    simp only [step]
    split <;> exact ⟨rfl, rfl⟩
  | samplerTick el m loc =>
    have hk := samplerCallback_keeps loc el m s
    simp only [step]
    split
    · exact ⟨rfl, rfl⟩
    · exact ⟨hk.1, hk.2.1⟩
  | cameraTick =>
    have hk := cameraLoopCallback_keeps_controls s
    simp only [step]
    split
    · exact ⟨rfl, rfl⟩
    · exact ⟨hk.1, hk.2.1⟩
  | beginTest => exact ⟨rfl, rfl⟩
  | resolution v => exact ⟨rfl, rfl⟩
  | refresh v => exact ⟨rfl, rfl⟩
  | antialiasing v => simp [Event.isAntialiasing] at he
  | resize w h => exact ⟨rfl, rfl⟩
  | save => exact ⟨rfl, rfl⟩

theorem run_msaa_other (evs : List Event) (s : State)
    (h : ∀ e ∈ evs, e.isAntialiasing = false) :
    (run evs s).msaaSamples = s.msaaSamples
    ∧ (run evs s).composerMultisampling = s.composerMultisampling := by
  induction evs generalizing s with
  | nil => exact ⟨rfl, rfl⟩
  | cons e evs ih =>
    have h1 := ih (step s e) (fun x hx => h x (List.mem_cons_of_mem _ hx))
    have h2 := step_msaa_other s e (h e (List.mem_cons_self _ _))
    rw [run_cons]
    exact ⟨h1.1.trans h2.1, h1.2.trans h2.2⟩

/-- In every state the event loop reaches, `msaaSamples` is either still
undefined, with the composer at its initial multisampling 0, or equal to the
multisampling of the composer. -/
theorem run_msaa_invariant (evs : List Event) :
    ((run evs initialState).msaaSamples = none
        ∧ (run evs initialState).composerMultisampling = 0)
    ∨ (run evs initialState).msaaSamples
        = some (run evs initialState).composerMultisampling := by
  induction evs using List.reverseRecOn with
  | nil => exact Or.inl ⟨rfl, rfl⟩
  | append_singleton evs e ih =>
    rw [run_append, run_cons, run_nil]
    cases he : e.isAntialiasing with
    | false =>
      have h := step_msaa_other (run evs initialState) e he
      rw [h.1, h.2]
      exact ih
    | true =>
      cases e with
      | antialiasing v => exact Or.inr rfl
      | frame now => simp [Event.isAntialiasing] at he
      | samplerTick el m loc => simp [Event.isAntialiasing] at he
      | cameraTick => simp [Event.isAntialiasing] at he
      | beginTest => simp [Event.isAntialiasing] at he
      | resolution v => simp [Event.isAntialiasing] at he
      | refresh v => simp [Event.isAntialiasing] at he
      | resize w h => simp [Event.isAntialiasing] at he
      | save => simp [Event.isAntialiasing] at he

/-- Without a change of the antialiasing selector `msaaSamples` stays
undefined while the composer runs at multisampling 0, and the MSAA line of
the export is built from `undefined`. -/
theorem msaa_undefined_without_change (evs : List Event)
    (h : ∀ e ∈ evs, e.isAntialiasing = false) :
    (run evs initialState).composerMultisampling = 0
    ∧ (run evs initialState).msaaSamples = none
    ∧ "          MSAA: ".toList ++ templateValue (run evs initialState).msaaSamples
        ++ " ".toList = "          MSAA: undefined ".toList := by
  have hk := run_msaa_other evs initialState h
  have h1 : (run evs initialState).msaaSamples = none := hk.1
  refine ⟨hk.2, h1, ?_⟩
  rw [h1]
  decide

/-- C9, the failing input. With the antialiasing selector never changed (the
initial state, in which the composer runs at multisampling 0), the MSAA line
of the text built by `SaveTestResults` reads `MSAA: undefined`, not `MSAA: 0`. -/
theorem msaa_line_undefined (date : List Char) :
    initialState.composerMultisampling = 0
    ∧ splitLines (SaveTestResults date initialState)
      = ["Three.js performance test results ".toList, []]
        ++ splitLines ("          Testing date: ".toList ++ date ++ "; ".toList)
        ++ [[],
            "          Resolution: width: 1920, height: 1080 ".toList,
            [],
            "          Refresh rate: 0 ".toList,
            [],
            "          MSAA: undefined ".toList,
            [],
            "          Frames per second (each FPS count in array was ticked every second):".toList,
            "           ".toList,
            [],
            "          Memory usage (in Megabytes):".toList,
            "          ".toList,
            "          ".toList] := by
  refine ⟨rfl, ?_⟩
  rw [SaveTestResults_lines]
  have r1 : "          Resolution: width: ".toList ++ numberToString initialState.sizes.width
      ++ ", height: ".toList ++ numberToString initialState.sizes.height ++ " ".toList
      = "          Resolution: width: 1920, height: 1080 ".toList := by decide
  have r2 : "          Refresh rate: ".toList ++ numberToString initialState.refreshRate
      ++ " ".toList = "          Refresh rate: 0 ".toList := by decide
  have r3 : "          MSAA: ".toList ++ templateValue initialState.msaaSamples ++ " ".toList
      = "          MSAA: undefined ".toList := by decide
  have r4 : "          ".toList ++ arrayToString initialState.testResults ++ " ".toList
      = "           ".toList := by decide
  have r5 : "          ".toList ++ arrayToString (List.map some initialState.memoryUsage)
      = "          ".toList := by decide
  rw [r1, r2, r3, r4, r5]

/-! ## Repeated `Begin test` -/

theorem step_timers (s : State) (e : Event) :
    (step s e).samplerTimers = s.samplerTimers + (if e.isBeginTest = true then 1 else 0)
    ∧ (step s e).cameraTimers = s.cameraTimers + (if e.isBeginTest = true then 1 else 0)
    ∧ (e.isBeginTest = true → (step s e).readyToTest = true) := by
  cases e with
  | frame now =>
    simp only [step, Event.isBeginTest]
    split <;> simp [fpsCounterLoop]
  | samplerTick el m loc =>
    have hk := samplerCallback_keeps loc el m s
    simp only [step, Event.isBeginTest]
    split
    · simp
    · simp [hk.2.2.1, hk.2.2.2.1]
  | cameraTick =>
    have hk := cameraLoopCallback_keeps_controls s
    have hk2 := cameraLoopCallback_keeps s
    simp only [step, Event.isBeginTest]
    split
    · simp
    · simp [hk.2.2, hk2.2.1]
  | beginTest => simp [step, Event.isBeginTest, BeginTest, startClockTimer, beginCameraLoop]
  | resolution v => simp [step, Event.isBeginTest, setResolution]
  | refresh v => simp [step, Event.isBeginTest, setRefreshRate]
  | antialiasing v => simp [step, Event.isBeginTest, setAntialiasing]
  | resize w h => simp [step, Event.isBeginTest, windowResize]
  | save => simp [step, Event.isBeginTest]

theorem step_ready (s : State) (e : Event) (h : s.readyToTest = true) :
    (step s e).readyToTest = true := by
  cases e with
  | frame now => simp [step, h, fpsCounterLoop]
  | samplerTick el m loc =>
    have hk := samplerCallback_keeps loc el m s
    simp only [step]
    split
    · exact h
    · rw [hk.2.2.2.2.1]; exact h
  | cameraTick =>
    have hk := cameraLoopCallback_keeps s
    simp only [step]
    split
    · exact h
    · rw [hk.1]; exact h
  | beginTest => rfl
  | resolution v => exact h
  | refresh v => exact h
  | antialiasing v => exact h
  | resize w ht => exact h
  | save => exact h

/-- The registered intervals count the presses of `Begin test`; after the
first press the session is running. -/
theorem run_timers (evs : List Event) (s : State) :
    (run evs s).samplerTimers = s.samplerTimers + evs.countP Event.isBeginTest
    ∧ (run evs s).cameraTimers = s.cameraTimers + evs.countP Event.isBeginTest
    ∧ ((s.readyToTest = true ∨ 0 < evs.countP Event.isBeginTest) →
        (run evs s).readyToTest = true) := by
  induction evs generalizing s with
  | nil =>
    refine ⟨rfl, rfl, ?_⟩
    intro h
    rcases h with h | h
    · exact h
    · simp at h
  | cons e evs ih =>
    obtain ⟨i1, i2, i3⟩ := ih (step s e)
    obtain ⟨t1, t2, t3⟩ := step_timers s e
    rw [run_cons, i1, i2, t1, t2]
    cases hb : e.isBeginTest with
    | false =>
      refine ⟨by simp [hb], by simp [hb], ?_⟩
      intro h
      apply i3
      rcases h with h | h
      · exact Or.inl (step_ready s e h)
      · right
        simpa [hb] using h
    | true =>
      refine ⟨by simp [hb]; omega, by simp [hb]; omega, ?_⟩
      intro _
      exact i3 (Or.inl (t3 hb))

/-- Firing the sampler once for each index of a list, in the running state
and with the probe available, appends one entry per index to each series. -/
theorem sampler_fold_grow (loc : Int → List Char) (readings : Nat → ℚ × Option Int)
    (hp : ∀ i, (readings i).2 ≠ none) (idx : List Nat) (s : State)
    (h : s.readyToTest = true) :
    ∃ l m, (idx.foldl (fun st i => (samplerCallback loc (readings i).1 (readings i).2 st).1)
            s).testResults = s.testResults ++ l
      ∧ (idx.foldl (fun st i => (samplerCallback loc (readings i).1 (readings i).2 st).1)
            s).memoryUsage = s.memoryUsage ++ m
      ∧ l.length = idx.length ∧ m.length = idx.length := by
  induction idx generalizing s with
  | nil => exact ⟨[], [], by simp, by simp, rfl, rfl⟩
  | cons i idx ih =>
    obtain ⟨b, hb⟩ : ∃ b, (readings i).2 = some b :=
      Option.ne_none_iff_exists'.mp (hp i)
    have h1 := samplerCallback_running loc (readings i).1 (some b) s h
    have h2 := samplerCallback_available loc (readings i).1 b s h
    obtain ⟨l, m, hl, hm, hll, hml⟩ :=
      ih (samplerCallback loc (readings i).1 (readings i).2 s).1 (by rw [hb]; exact h1.2.1)
    refine ⟨s.fps :: l, mathRound ((b : ℚ) / 1048576) :: m, ?_, ?_, ?_, ?_⟩
    · rw [List.foldl_cons, hl, hb, h1.1]; simp
    · rw [List.foldl_cons, hm, hb, h2.1]; simp
    · simp [hll]
    · simp [hml]

/-- C10. After any sequence of turns of the event loop from the initial state
in which `Begin test` was pressed `k` times, `k` sampler intervals and `k`
camera intervals are registered; one elapsed second, in which each sampler
interval fires once with the memory probe available, appends exactly `k`
entries to `testResults` and `k` to `memoryUsage`, and one elapsed period of
20 seconds advances the camera cursor by `k`. -/
theorem repeated_begin_test (loc : Int → List Char) (evs : List Event) (readings : Nat → ℚ × Option Int)
    (hp : ∀ i, (readings i).2 ≠ none) :
    (run evs initialState).samplerTimers = evs.countP Event.isBeginTest
    ∧ (run evs initialState).cameraTimers = evs.countP Event.isBeginTest
    ∧ (∃ l m, (elapseSecond loc readings (run evs initialState)).testResults
          = (run evs initialState).testResults ++ l
        ∧ (elapseSecond loc readings (run evs initialState)).memoryUsage
          = (run evs initialState).memoryUsage ++ m
        ∧ l.length = evs.countP Event.isBeginTest
        ∧ m.length = evs.countP Event.isBeginTest)
    ∧ (elapseCameraPeriod (run evs initialState)).currentPosition
        = (run evs initialState).currentPosition + evs.countP Event.isBeginTest := by
  obtain ⟨t1, t2, t3⟩ := run_timers evs initialState
  have e1 : (run evs initialState).samplerTimers = evs.countP Event.isBeginTest := by
    rw [t1]; simp [initialState]
  have e2 : (run evs initialState).cameraTimers = evs.countP Event.isBeginTest := by
    rw [t2]; simp [initialState]
  refine ⟨e1, e2, ?_, ?_⟩
  · unfold elapseSecond
    rw [e1]
    by_cases hk : 0 < evs.countP Event.isBeginTest
    · obtain ⟨l, m, hl, hm, hll, hml⟩ := sampler_fold_grow loc readings hp
        (List.range (evs.countP Event.isBeginTest)) _ (t3 (Or.inr hk))
      exact ⟨l, m, hl, hm, by simpa using hll, by simpa using hml⟩
    · have h0 : evs.countP Event.isBeginTest = 0 := by omega
      rw [h0]
      exact ⟨[], [], by simp, by simp, rfl, rfl⟩
  · unfold elapseCameraPeriod
    rw [e2]
    exact (cameraTicks_fields _ _).1

theorem repeated_begin_test_witness :
    (∀ i : Nat, ((fun _ => ((1 : ℚ), some (209715200 : Int))) i).2 ≠ none)
    ∧ (run [Event.beginTest, Event.beginTest] initialState).samplerTimers
        = [Event.beginTest, Event.beginTest].countP Event.isBeginTest :=
  ⟨fun _ => by simp,
    (repeated_begin_test numberToString [Event.beginTest, Event.beginTest]
      (fun _ => ((1 : ℚ), some (209715200 : Int))) (fun _ => by simp)).1⟩

end Renderer
